import Mathlib

/-!
Shallow embedding of src/serialization.py (an ObjectStream decoder).

Conventions of the embedding:
* Python byte strings are modelled as `List Nat` (each element one byte value);
  Python text strings built with `chr` keep the character codes, so they are
  also `List Nat`.
* Python integers are `Nat` (all arithmetic in the source is on non-negative
  values) except the reference index, which may go negative and is `Int`.
* A raised Python exception is an `Except.error` carrying an `Err` tag naming
  the exception site; raising aborts the whole decode, as in the source
  (the source never catches exceptions).
* `Handler` state is the structure `HState`; handler methods are state
  functions in the monad `HM`.
* The source registers mutable objects in the handle table in mid-decode and
  completes them in place.  The embedding stores the record as constructed at
  registration time (a snapshot); for every non-self-referential stream the
  two agree.
* `decode_object` is recursive through the grammar, so it takes a fuel
  parameter; every mutually recursive helper receives the recursively smaller
  `decode_object` as the argument `deco`.
-/

namespace ObjectStreamDecode

/-- Exception outcomes of the source, one tag per raise site or library error. -/
inductive Err where
  /-- EOFError: Unexpected end of stream. -/
  | eof
  /-- struct.error: an invalid format character was passed to struct.calcsize. -/
  | structError
  /-- ValueError: tuple unpacking of the wrong arity, or str.index miss. -/
  | valueError
  /-- Exception: unread block data. -/
  | unreadBlockData
  /-- Exception: Refilling disabled. -/
  | refillingDisabled
  /-- Exception: Invalid block data. -/
  | invalidBlockData
  /-- Exception: Invalid type code (zero tag byte in decode_object). -/
  | invalidTypeCode
  /-- Exception: Invalid type for class desc. -/
  | invalidClassDescType
  /-- Exception: Invalid type for enum (also reused by NewClassDesc for a
  missing end-block-data, and by ProxyClassDesc). -/
  | invalidEnumType
  /-- Exception: Invalid type code in Field.decode. -/
  | invalidFieldTypeCode
  /-- Exception: Invalid type for field. -/
  | invalidFieldType
  /-- Exception: Invalid array type. -/
  | invalidArrayType
  /-- Exception: TC_PROXYCLASSDESC not supported. -/
  | proxyNotSupported
  /-- IndexError: list index out of range (handle table lookup). -/
  | indexError
  /-- AttributeError: an attribute access on None. -/
  | attributeError
  /-- Recursion budget of the embedding exhausted (models unbounded
  recursion in the source; never hit on the inputs used in this file). -/
  | outOfFuel
  deriving DecidableEq, Repr

/-- A Python value used as the element type of an array or the argument of
read_primitive: a string (one of the eight primitive-type names delivered by
Constants.PRIMITIVE_TYPES, or a component class name, or the empty initial
value), or the Python constant False produced by NewArray.array_type.
read_primitive dispatches on string equality, exactly as the source does. -/
inductive PyType where
  | pstr (s : List Nat)
  | falseV
  deriving DecidableEq, Repr

/-- Decoded records: one variant per Element subclass of the source, plus
pyNone (the Python None that decode_object returns on an unknown tag) and
vInt / vBool (primitive values placed in content lists by read_primitive). -/
inductive Record where
  | null
  | pyNone
  | endBlockData
  | header (magic : Nat) (version : Nat)
  | string (content : List Nat)
  | longString (content : List Nat)
  | blockData (size : Nat) (content : List Nat) (hasBuf : Bool)
  | blockDataLong (size : Nat) (content : List Nat) (hasBuf : Bool)
  | classDesc (content : Record)
  | newClassDesc (className : List Nat) (serialVersionUid : Nat) (flags : Nat)
      (fields : List Record) (superClass : Option Record)
  | proxyClassDesc (ifaces : List (List Nat)) (superClass : Option Record)
  | fieldRec (code : Nat) (fieldName : List Nat) (fieldType : Option Record)
  | newObject (classDescr : Record) (contents : List Record)
  | newArray (newClassDescr : Record) (size : Nat) (type : PyType)
      (contents : List Record)
  | newClass (classDescr : Record)
  | enum (description : Record) (name : Option (List Nat))
  | reference (ref : Int) (obj : Record)
  | javaException (exception : Record)
  | vInt (n : Nat)
  | vBool (b : Bool)

/-- The adopted block-data frame: the bytes of the current BlockData record
together with the read cursor of its BytesIO.  hasBuf is false when the
decoded block had size 0, in which case the io field of the source object is
None. -/
structure Frame where
  size : Nat
  content : List Nat
  ioPos : Nat
  hasBuf : Bool

/-- The state of a Handler: the remaining bytes of the underlying source,
the block cursor pair pos / end, the mode bit, the adopted frame, and the
handle table.  refills is a ghost counter incremented once per completed
refill, used to state the at-most-one-refill property. -/
structure HState where
  io : List Nat
  pos : Nat
  end_ : Nat
  blockMode : Bool
  blockData : Option Frame
  references : List Record
  refills : Nat

/-- State-and-exception monad of the embedding: a handler method transforms
the state or raises. -/
def HM (α : Type) : Type := HState → Except Err (α × HState)

instance : Monad HM where
  pure a := fun s => .ok (a, s)
  bind x f := fun s =>
    match x s with
    | .ok (a, s') => f a s'
    | .error e => .error e

/-- Raise an exception. -/
def throwE {α : Type} (e : Err) : HM α := fun _ => .error e

/-- Read the current state. -/
def getS : HM HState := fun s => .ok (s, s)

/-- BytesIO.read of the underlying source: yields up to n bytes, silently
fewer at end of stream. -/
def ioRead (n : Nat) : HM (List Nat) := fun s =>
  match s with
  | ⟨io, pos, e, bm, bd, refs, rf⟩ => .ok (io.take n, ⟨io.drop n, pos, e, bm, bd, refs, rf⟩)

/-- Handler.skip: seeks the source forward by n.  io.seek returns the new
absolute position, so the while loop of the source runs at most one
iteration and never raises (BytesIO allows seeking past the end). -/
def skip (n : Nat) : HM Unit := fun s =>
  match s with
  | ⟨io, pos, e, bm, bd, refs, rf⟩ => .ok ((), ⟨io.drop n, pos, e, bm, bd, refs, rf⟩)

/-- Handler.set_block_data_mode. -/
def setBlockDataMode (newmode : Bool) : HM Unit := fun s =>
  match s with
  | ⟨io, pos, e, bm, bd, refs, rf⟩ =>
    if newmode = bm then .ok ((), ⟨io, pos, e, bm, bd, refs, rf⟩)
    else if newmode then .ok ((), ⟨io, 0, 0, true, bd, refs, rf⟩)
    else if pos < e then .error .unreadBlockData
    else .ok ((), ⟨io, pos, e, false, bd, refs, rf⟩)

/-- Handler.get_unread: end - pos.  In the only call site (refill) pos is at
most end, so the truncated Nat subtraction agrees with the source. -/
def getUnread : HM Nat := fun s => .ok (s.end_ - s.pos, s)

/-- Handler.add_reference: append one record to the handle table. -/
def addReference (r : Record) : HM Unit := fun s =>
  match s with
  | ⟨io, pos, e, bm, bd, refs, rf⟩ => .ok ((), ⟨io, pos, e, bm, bd, refs ++ [r], rf⟩)

/-- Python list indexing semantics, negative indices included: an index i
with -len <= i < len selects an element (from the back if negative), any
other index raises IndexError. -/
def pyIndex (l : List Record) (i : Int) : Except Err Record :=
  let j : Int := if i < 0 then (l.length : Int) + i else i
  if 0 ≤ j then
    match l.get? j.toNat with
    | some r => .ok r
    | none => .error .indexError
  else .error .indexError

/-- Handler.get_reference: look the (already rebased) index up in the handle
table with Python list semantics. -/
def getReference (ref : Int) : HM Record := fun s =>
  match pyIndex s.references ref with
  | .ok r => .ok (r, s)
  | .error e => .error e

/-- The struct format strings the source passes to read_struct. -/
inductive StructFmt where
  | fHH | fBool | fB | fSS | fD | fF
  deriving DecidableEq, Repr

/-- struct.calcsize on each format string of the source.  The characters D
and F are not valid Python struct format characters, so calcsize raises
struct.error on them (modelled as none). -/
def calcsize : StructFmt → Option Nat
  | .fHH => some 4
  | .fBool => some 1
  | .fB => some 1
  | .fSS => some 2
  | .fD => none
  | .fF => none

/-- The read from the adopted frame performed by read_struct in block mode:
self.block_data.io.read(ln) followed by the length check and pos update.
Reading when block_data is None, or when its io is None (a size-0 frame),
raises AttributeError. -/
def frameRead (ln : Nat) : HM (List Nat) := fun s =>
  match s with
  | ⟨io, pos, e, bm, bd, refs, rf⟩ =>
    match bd with
    | none => .error .attributeError
    | some ⟨sz, content, ioPos, hasBuf⟩ =>
      if hasBuf then
        let ba := (content.drop ioPos).take ln
        if ba.length = ln then
          .ok (ba, ⟨io, pos + ln, e, bm, some ⟨sz, content, ioPos + ln, hasBuf⟩, refs, rf⟩)
        else .error .eof
      else .error .attributeError

/-- The read from the underlying source performed by read_struct in stream
mode: self.io.read(ln), the length check, and the pos update. -/
def streamRead (ln : Nat) : HM (List Nat) := fun s =>
  match s with
  | ⟨io, pos, e, bm, bd, refs, rf⟩ =>
    let ba := io.take ln
    if ba.length = ln then .ok (ba, ⟨io.drop ln, pos + ln, e, bm, bd, refs, rf⟩)
    else .error .eof

/-- The final assignments of Handler.refill: store the decoded block as the
current frame with a fresh cursor, reset pos, set end to the block size, and
count the completed refill in the ghost counter. -/
def adoptFrame (sz : Nat) (c : List Nat) (h : Bool) : HM Unit := fun s =>
  match s with
  | ⟨io, _, _, bm, _, refs, rf⟩ =>
    .ok ((), ⟨io, 0, sz, bm, some ⟨sz, c, 0, h⟩, refs, rf + 1⟩)

/-- Handler.refill, parameterized by the decode_object call it performs. -/
def refillG (deco : HM Record) : HM Unit := fun s =>
  if s.blockMode then
    (do
      let u ← getUnread
      skip u
      setBlockDataMode false
      let bd ← deco
      setBlockDataMode true
      match bd with
      | .blockData sz c h => adoptFrame sz c h
      | .blockDataLong sz c h => adoptFrame sz c h
      | _ => throwE .invalidBlockData) s
  else .error .refillingDisabled

/-- Handler.read_struct: compute the format size (raising struct.error on an
invalid format), refill once if in block mode with the cursor at the frame
end, then read the bytes from the frame or the source. -/
def readStructG (deco : HM Record) (fmt : StructFmt) : HM (List Nat) :=
  match calcsize fmt with
  | none => throwE .structError
  | some ln =>
    getS >>= fun s =>
    (if s.blockMode ∧ s.pos = s.end_ then refillG deco else pure ()) >>= fun _ =>
    getS >>= fun s2 =>
    if s2.blockMode then frameRead ln else streamRead ln

/-- Handler.read_boolean: one byte through format >?, nonzero is true. -/
def readBoolean (deco : HM Record) : HM Bool := do
  let ba ← readStructG deco .fBool
  pure (ba.headD 0 ≠ 0)

/-- Handler.read_byte: one byte through format >B. -/
def readByte (deco : HM Record) : HM Nat := do
  let ba ← readStructG deco .fB
  pure (ba.headD 0)

/-- Handler.read_char: read_struct(">ss") yields a pair of one-byte strings,
and the source then unpacks that 2-tuple into a single variable, which
raises ValueError on every call. -/
def readChar (deco : HM Record) : HM Nat := do
  let _ ← readStructG deco .fSS
  throwE .valueError

/-- Handler.read_double: read_struct(">D"); D is not a valid struct format
character, so struct.calcsize raises before any byte is read. -/
def readDouble (deco : HM Record) : HM Nat := do
  let ba ← readStructG deco .fD
  pure (ba.headD 0)

/-- Handler.read_float: read_struct(">F"); F is not a valid struct format
character, so struct.calcsize raises before any byte is read. -/
def readFloat (deco : HM Record) : HM Nat := do
  let ba ← readStructG deco .fF
  pure (ba.headD 0)

/-- Handler.read_short: two read_byte calls combined big-endian, so the two
bytes may straddle a frame refill. -/
def readShort (deco : HM Record) : HM Nat := do
  let v1 ← readByte deco
  let v2 ← readByte deco
  pure ((v1 <<< 8) + v2)

/-- Handler.read_int: two read_short calls combined big-endian. -/
def readInt (deco : HM Record) : HM Nat := do
  let v1 ← readShort deco
  let v2 ← readShort deco
  pure ((v1 <<< 16) + v2)

/-- Handler.read_long: two read_int calls combined big-endian. -/
def readLong (deco : HM Record) : HM Nat := do
  let v1 ← readInt deco
  let v2 ← readInt deco
  pure ((v1 <<< 32) + v2)

/-- The byte values of the type codes accepted by Field (the int keys of
Constants.TYPES): the eight primitives B C D F I J S Z and the two object
codes, open bracket and L. -/
def typeCodes : List Nat := [66, 67, 68, 70, 73, 74, 83, 90, 91, 76]

/-- The byte values of the primitive type codes (keys of
Constants.PRIMITIVE_TYPES). -/
def primitiveCodes : List Nat := [66, 67, 68, 70, 73, 74, 83, 90]

/-- The byte values of the object type codes (keys of
Constants.OBJECT_TYPES): open bracket (91) and L (76). -/
def objectCodes : List Nat := [91, 76]

/-- Constants.PRIMITIVE_TYPES lookup for a valid primitive code byte: the
character codes of the name strings byte, char, double, float, int, long,
short, boolean. -/
def primStr (code : Nat) : List Nat :=
  if code = 66 then [98, 121, 116, 101]
  else if code = 67 then [99, 104, 97, 114]
  else if code = 68 then [100, 111, 117, 98, 108, 101]
  else if code = 70 then [102, 108, 111, 97, 116]
  else if code = 73 then [105, 110, 116]
  else if code = 74 then [108, 111, 110, 103]
  else if code = 83 then [115, 104, 111, 114, 116]
  else [98, 111, 111, 108, 101, 97, 110]

/-- Handler.read_primitive: compare the argument against the eight
primitive-name strings in source order; anything else (component class
names, the empty string, False) falls through to decode_object.  A
component class literally named like a primitive is read as that
primitive, exactly as the string comparison of the source does. -/
def readPrimitive (deco : HM Record) : PyType → HM Record
  | .pstr s =>
    if s = [98, 121, 116, 101] then do pure (.vInt (← readByte deco))
    else if s = [99, 104, 97, 114] then do pure (.vInt (← readChar deco))
    else if s = [100, 111, 117, 98, 108, 101] then do pure (.vInt (← readDouble deco))
    else if s = [102, 108, 111, 97, 116] then do pure (.vInt (← readFloat deco))
    else if s = [105, 110, 116] then do pure (.vInt (← readInt deco))
    else if s = [108, 111, 110, 103] then do pure (.vInt (← readLong deco))
    else if s = [115, 104, 111, 114, 116] then do pure (.vInt (← readShort deco))
    else if s = [98, 111, 111, 108, 101, 97, 110] then do pure (.vBool (← readBoolean deco))
    else deco
  | .falseV => deco

/-- The character-by-character loop shared by String and LongString:
`for i in range(n): contents.append(chr(handler.read_byte()))`. -/
def readChars (deco : HM Record) : Nat → HM (List Nat)
  | 0 => pure []
  | n + 1 => do
    let b ← readByte deco
    let rest ← readChars deco n
    pure (b :: rest)

/-- String.decode: u16 length then that many one-byte characters.  A zero
length returns early with the initial empty content. -/
def stringDecode (deco : HM Record) : HM (List Nat) := do
  let ln ← readShort deco
  if ln = 0 then pure []
  else readChars deco ln

/-- LongString.decode: u64 length then that many one-byte characters. -/
def longStringDecode (deco : HM Record) : HM (List Nat) := do
  let ln ← readLong deco
  if ln = 0 then pure []
  else readChars deco ln

/-- BlockData.decode and BlockDataLong.decode, selected by the long flag:
read the size (one byte, or a u32), then on a nonzero size read exactly that
many bytes directly from the underlying source into a fresh BytesIO.  A zero
size returns early, leaving the io field None (hasBuf false). -/
def blockDataDecode (deco : HM Record) (long : Bool) : HM Record :=
  (if long then readInt deco else readByte deco) >>= fun size =>
  if size = 0 then
    pure (if long then .blockDataLong 0 [] false else .blockData 0 [] false)
  else
    ioRead size >>= fun content =>
    if content.length = size then
      pure (if long then .blockDataLong size content true
            else .blockData size content true)
    else throwE .eof

/-- ClassDesc.decode: one tag dispatch; the record must be Null, Reference,
ProxyClassDesc, or NewClassDesc, and a Reference is unwrapped to its target
(the target is not re-checked, as in the source). -/
def classDescDecode (deco : HM Record) : HM Record := do
  let t ← deco
  match t with
  | .null => pure (.classDesc .null)
  | .reference _ obj => pure (.classDesc obj)
  | .proxyClassDesc i sup => pure (.classDesc (.proxyClassDesc i sup))
  | .newClassDesc a b c d e => pure (.classDesc (.newClassDesc a b c d e))
  | _ => throwE .invalidClassDescType

/-- Enum.decode: class descriptor, then the handle registration (snapshot:
the name is still None), then one record that must be a LongString, String
or Reference; the referenced object must expose a content attribute. -/
def enumDecode (deco : HM Record) : HM Record := do
  let desc ← classDescDecode deco
  addReference (.enum desc none)
  let t ← deco
  match t with
  | .string c => pure (.enum desc (some c))
  | .longString c => pure (.enum desc (some c))
  | .reference _ obj =>
    match obj with
    | .string c => pure (.enum desc (some c))
    | .longString c => pure (.enum desc (some c))
    | _ => throwE .attributeError
  | _ => throwE .invalidEnumType

/-- Field.decode: a type-code byte checked against Constants.TYPES, an inline
short-string field name, and for an object or array code one record that
must be a String or a Reference (unwrapped, not re-checked). -/
def fieldDecode (deco : HM Record) : HM Record := do
  let code ← readByte deco
  if code ∈ typeCodes then do
    let name ← stringDecode deco
    if code ∈ objectCodes then do
      let t ← deco
      match t with
      | .string c => pure (.fieldRec code name (some (.string c)))
      | .reference _ obj => pure (.fieldRec code name (some obj))
      | _ => throwE .invalidFieldType
    else pure (.fieldRec code name none)
  else throwE .invalidFieldTypeCode

/-- The field loop of NewClassDesc.decode. -/
def decodeFieldsN (deco : HM Record) : Nat → HM (List Record)
  | 0 => pure []
  | n + 1 => do
    let f ← fieldDecode deco
    let rest ← decodeFieldsN deco n
    pure (f :: rest)

/-- NewClassDesc.decode: inline class name and u64 uid, handle registration
(snapshot: flags 0, no fields, super None), flags byte, u16 field count and
the fields, a record that must be EndBlockData, then the super descriptor. -/
def newClassDescDecode (deco : HM Record) : HM Record := do
  let name ← stringDecode deco
  let uid ← readLong deco
  addReference (.newClassDesc name uid 0 [] none)
  let flags ← readByte deco
  let fieldsCount ← readShort deco
  let fields ← decodeFieldsN deco fieldsCount
  let t ← deco
  match t with
  | .endBlockData => do
    let sup ← classDescDecode deco
    pure (.newClassDesc name uid flags fields (some sup))
  | _ => throwE .invalidEnumType

/-- The interface-name loop of ProxyClassDesc.decode. -/
def proxyIfaces (deco : HM Record) : Nat → HM (List (List Nat))
  | 0 => pure []
  | n + 1 => do
    let i ← stringDecode deco
    let rest ← proxyIfaces deco n
    pure (i :: rest)

/-- ProxyClassDesc.decode as written in the source (it is unreachable from
decode_object, which rejects the tag): immediate handle registration, u32
interface count with inline names, an EndBlockData, then the super
descriptor. -/
def proxyClassDescDecode (deco : HM Record) : HM Record := do
  addReference (.proxyClassDesc [] none)
  let size ← readInt deco
  let ifaces ← proxyIfaces deco size
  let t ← deco
  match t with
  | .endBlockData => do
    let sup ← classDescDecode deco
    pure (.proxyClassDesc ifaces (some sup))
  | _ => throwE .invalidEnumType

/-- NewObject.get_class_content: the content of a ClassDesc when that content
is a NewClassDesc, otherwise Python False (none). -/
def getClassContent : Record → Option Record
  | .classDesc c =>
    match c with
    | .newClassDesc a b d e f => some (.newClassDesc a b d e f)
    | _ => none
  | _ => none

/-- The per-field value loop of NewObject.decode_class_data: a primitive
field is read with read_primitive, an object field through tag dispatch with
a Reference unwrapped to its target. -/
def decodeFieldValues (deco : HM Record) : List Record → HM (List Record)
  | [] => pure []
  | f :: fs =>
    (match f with
     | .fieldRec code _ _ =>
       if code ∈ primitiveCodes then readPrimitive deco (.pstr (primStr code))
       else
         deco >>= fun c =>
         match c with
         | .reference _ obj => pure obj
         | _ => pure c
     | _ => throwE .attributeError) >>= fun v =>
    decodeFieldValues deco fs >>= fun rest =>
    pure (v :: rest)

/-- NewObject.decode_class_data: none is Python False (the empty value list);
for a NewClassDesc, first the super chain when the super descriptor holds a
NewClassDesc, then this descriptor's declared fields.  cfuel bounds the
chain length (the source would recurse forever on a cyclic chain). -/
def decodeClassData (deco : HM Record) : Nat → Option Record → HM (List Record)
  | _, none => pure []
  | 0, some _ => throwE .outOfFuel
  | cfuel + 1, some ncd =>
    match ncd with
    | .newClassDesc _ _ _ fields sup =>
      (match sup with
       | none => pure []
       | some supCD => decodeClassData deco cfuel (getClassContent supCD)) >>= fun superVals =>
      decodeFieldValues deco fields >>= fun fieldVals =>
      pure (superVals ++ fieldVals)
    | _ => throwE .attributeError

/-- NewObject.decode: class descriptor, handle registration (snapshot: no
contents yet), then the class data super-first. -/
def newObjectDecode (deco : HM Record) (cfuel : Nat) : HM Record := do
  let cd ← classDescDecode deco
  addReference (.newObject cd [])
  let contents ← decodeClassData deco cfuel (getClassContent cd)
  pure (.newObject cd contents)

/-- NewArray.array_type: Python False when the descriptor is not a
NewClassDesc whose name starts with an open bracket; otherwise the primitive
name selected by the second character, or for L the component class name up
to the first semicolon (str.index raising ValueError when absent), or the
Invalid-array-type error.  A one-character name raises IndexError. -/
def arrayType : Record → Except Err PyType
  | .newClassDesc name _ _ _ _ =>
    match name with
    | [] => .ok .falseV
    | c0 :: rest =>
      if c0 = 91 then
        match rest with
        | [] => .error .indexError
        | c1 :: _ =>
          if c1 ∈ primitiveCodes then .ok (.pstr (primStr c1))
          else if c1 = 76 then
            match name.indexOf? 59 with
            | some idx => .ok (.pstr ((name.drop 2).take (idx - 2)))
            | none => .error .valueError
          else .error .invalidArrayType
      else .ok .falseV
  | _ => .ok .falseV

/-- The element loop of NewArray.decode: one read_primitive per element with
Reference results unwrapped. -/
def readElems (deco : HM Record) (t : PyType) : Nat → HM (List Record)
  | 0 => pure []
  | n + 1 => do
    let c ← readPrimitive deco t
    let c2 :=
      match c with
      | .reference _ obj => obj
      | other => other
    let rest ← readElems deco t n
    pure (c2 :: rest)

/-- NewArray.decode: one tag dispatch that must yield a NewClassDesc or a
Reference (unwrapped without re-checking), handle registration (snapshot:
size 0, the initial empty-string type, no contents), the component type from
array_type, the u32 size, then the elements. -/
def newArrayDecode (deco : HM Record) : HM Record :=
  deco >>= fun cd =>
  (match cd with
   | .newClassDesc a b c d e => pure (Record.newClassDesc a b c d e)
   | .reference _ obj => pure obj
   | _ => throwE .invalidClassDescType) >>= fun cd2 =>
  addReference (.newArray cd2 0 (.pstr []) []) >>= fun _ =>
  (match arrayType cd2 with
   | .ok t => pure t
   | .error e => throwE e) >>= fun t =>
  readInt deco >>= fun size =>
  readElems deco t size >>= fun contents =>
  pure (.newArray cd2 size t contents)

/-- NewClass.decode: class descriptor then handle registration. -/
def newClassDecode (deco : HM Record) : HM Record := do
  let cd ← classDescDecode deco
  addReference (.newClass cd)
  pure (.newClass cd)

/-- JavaException.decode: one record with a Reference unwrapped. -/
def javaExceptionDecode (deco : HM Record) : HM Record := do
  let e ← deco
  match e with
  | .reference _ obj => pure (.javaException obj)
  | other => pure (.javaException other)

/-- Reference.decode: u32 operand rebased by BASE_WIRE_HANDLE (0x7E0000,
possibly negative) and looked up in the handle table. -/
def referenceDecode (deco : HM Record) : HM Record := do
  let v ← readInt deco
  let ref : Int := (v : Int) - 0x7E0000
  let obj ← getReference ref
  pure (.reference ref obj)

/-- decode_object: read one tag byte, raise on zero, dispatch on the tag.
String and LongString register their handle after decoding; tag 0x7D raises
TC_PROXYCLASSDESC not supported; every other unrecognized tag falls through
the if chain and returns Python None. -/
def decodeObject : Nat → HM Record
  | 0 => throwE .outOfFuel
  | fuel + 1 =>
    let deco := decodeObject fuel
    do
      let tc ← readByte deco
      if tc = 0 then throwE .invalidTypeCode
      else if tc = 0x75 then newArrayDecode deco
      else if tc = 0x77 then blockDataDecode deco false
      else if tc = 0x7A then blockDataDecode deco true
      else if tc = 0x76 then newClassDecode deco
      else if tc = 0x72 then newClassDescDecode deco
      else if tc = 0x78 then pure .endBlockData
      else if tc = 0x7E then enumDecode deco
      else if tc = 0x7B then javaExceptionDecode deco
      else if tc = 0x7C then do
        let c ← longStringDecode deco
        addReference (.longString c)
        pure (.longString c)
      else if tc = 0x70 then pure .null
      else if tc = 0x73 then newObjectDecode deco fuel
      else if tc = 0x7D then throwE .proxyNotSupported
      else if tc = 0x71 then referenceDecode deco
      else if tc = 0x74 then do
        let c ← stringDecode deco
        addReference (.string c)
        pure (.string c)
      else pure .pyNone

/-- Header.decode: read_struct(">HH"), two big-endian u16 values.  The
source stores them without any comparison against STREAM_MAGIC or
STREAM_VERSION. -/
def headerDecode (deco : HM Record) : HM Record := do
  let ba ← readStructG deco .fHH
  match ba with
  | [a, b, c, d] => pure (.header ((a <<< 8) + b) ((c <<< 8) + d))
  | _ => pure (.header 0 0)

/-- The initial Handler state over a byte source. -/
def initState (bytes : List Nat) : HState :=
  { io := bytes, pos := 0, end_ := 0, blockMode := false, blockData := none,
    references := [], refills := 0 }

/-- Handler construction: initialize the state and decode the header.  No
value of the header is checked. -/
def handlerInit (fuel : Nat) (bytes : List Nat) : Except Err (Record × HState) :=
  headerDecode (decodeObject fuel) (initState bytes)

/-- Specification-side well-formedness of a decoded block record: when the
io buffer is present, the stored content has exactly the announced size.
Trivially true of every other record. -/
def GoodBD : Record → Prop := fun r =>
  match r with
  | .blockData sz c h => h = true → c.length = sz
  | .blockDataLong sz c h => h = true → c.length = sz
  | _ => True

/-- Specification-side behavioural envelope of a handler computation with
result predicate P: on success it cannot enable block mode or complete a
refill when started in stream mode, it only appends to the handle table, and
the result satisfies P. -/
def Tame {α : Type} (P : α → Prop) (m : HM α) : Prop :=
  ∀ s a s', m s = .ok (a, s') →
    ((s.blockMode = false → s'.blockMode = false ∧ s'.refills = s.refills) ∧
     ∃ t, s'.references = s.references ++ t) ∧ P a

/-- Specification-side block-reader invariant: in block mode, either the
cursor sits at the frame end (the next read will refill), or the adopted
frame is synchronized with the cursor: the io buffer is present, holds
exactly size bytes, its own cursor equals pos and is within the content, and
end equals the frame size. -/
def BInv (s : HState) : Prop :=
  s.blockMode = true →
    (s.pos = s.end_ ∨
     ∃ f, s.blockData = some f ∧ f.hasBuf = true ∧ f.content.length = f.size ∧
       f.ioPos = s.pos ∧ f.ioPos ≤ f.content.length ∧ s.end_ = f.size)

/-- Specification-side field count of the super-descriptor chain of a
class descriptor: its own declared fields plus, when the super descriptor
wraps another NewClassDesc, that chain's count.  Zero for any record that is
not a NewClassDesc. -/
def chainCountR : Record → Nat
  | .newClassDesc _ _ _ fields (some (.classDesc c)) => chainCountR c + fields.length
  | .newClassDesc _ _ _ fields _ => fields.length
  | _ => 0

/-- chainCountR lifted to the optional argument of decode_class_data. -/
def chainCount : Option Record → Nat
  | none => 0
  | some r => chainCountR r

/-- Whether a record is a NewClassDesc whose class name begins with the
open-bracket character (byte 91), the shape the specification requires of an
array descriptor. -/
def isBracketArrayDesc : Record → Bool
  | .newClassDesc (91 :: _) _ _ _ _ => true
  | _ => false

/-- Running a bound computation applies the first computation and feeds an
ok outcome to the continuation. -/
theorem bind_apply {α β : Type} (x : HM α) (f : α → HM β) (s : HState) :
    (x >>= f) s =
      match x s with
      | .ok (a, s') => f a s'
      | .error e => .error e := rfl

/-- Running pure yields the value and the unchanged state. -/
theorem pure_apply {α : Type} (a : α) (s : HState) :
    (pure a : HM α) s = .ok (a, s) := rfl

/-- A bound computation succeeds exactly when both stages succeed in
sequence. -/
theorem bind_ok_iff {α β : Type} (x : HM α) (f : α → HM β) (s : HState)
    (b : β) (s' : HState) :
    (x >>= f) s = .ok (b, s') ↔
      ∃ a s1, x s = .ok (a, s1) ∧ f a s1 = .ok (b, s') := by
  rw [bind_apply]
  cases hx : x s with
  | ok p =>
    constructor
    · intro h
      exact ⟨p.1, p.2, by simp [hx], by simpa using h⟩
    · rintro ⟨a, s1, h1, h2⟩
      cases h1
      simpa using h2
  | error e =>
    constructor
    · intro h
      cases h
    · rintro ⟨a, s1, h1, h2⟩
      cases h1

/-- Evaluating a bind whose first stage is known to succeed. -/
theorem bind_ok_eval {α β : Type} {x : HM α} {f : α → HM β} {s s1 : HState}
    {a : α} (h : x s = .ok (a, s1)) : (x >>= f) s = f a s1 := by
  rw [bind_apply, h]

/-- Tame is monotone in the result predicate. -/
theorem tame_mono {α : Type} {P Q : α → Prop} {m : HM α}
    (h : Tame P m) (hpq : ∀ a, P a → Q a) : Tame Q m := by
  intro s a s' hm
  obtain ⟨h1, h2⟩ := h s a s' hm
  exact ⟨h1, hpq a h2⟩

/-- pure is tame for any predicate its value satisfies. -/
theorem tame_pure {α : Type} {P : α → Prop} {a : α} (h : P a) :
    Tame P (pure a : HM α) := by
  intro s b s' hm
  cases hm
  exact ⟨⟨fun hb => ⟨hb, rfl⟩, [], by simp⟩, h⟩

/-- throwE never succeeds, hence is tame. -/
theorem tame_throwE {α : Type} {P : α → Prop} {e : Err} :
    Tame P (throwE e : HM α) := by
  intro s a s' hm
  cases hm

/-- Tameness composes through bind. -/
theorem tame_bind {α β : Type} (P : α → Prop) {Q : β → Prop}
    {m : HM α} {f : α → HM β}
    (hm : Tame P m) (hf : ∀ a, P a → Tame Q (f a)) : Tame Q (m >>= f) := by
  intro s b s' h
  rw [bind_ok_iff] at h
  obtain ⟨a, s1, h1, h2⟩ := h
  obtain ⟨⟨hmode1, t1, hrefs1⟩, hp⟩ := hm s a s1 h1
  obtain ⟨⟨hmode2, t2, hrefs2⟩, hq⟩ := hf a hp s1 b s' h2
  refine ⟨⟨?_, t1 ++ t2, ?_⟩, hq⟩
  · intro hb
    obtain ⟨hb1, hr1⟩ := hmode1 hb
    obtain ⟨hb2, hr2⟩ := hmode2 hb1
    exact ⟨hb2, hr2.trans hr1⟩
  · rw [hrefs2, hrefs1, List.append_assoc]

/-- getS is tame. -/
theorem tame_getS : Tame (fun _ => True) getS := by
  intro s a s' h
  cases h
  exact ⟨⟨fun hb => ⟨hb, rfl⟩, [], by simp⟩, trivial⟩

/-- ioRead is tame. -/
theorem tame_ioRead (n : Nat) : Tame (fun _ => True) (ioRead n) := by
  intro s a s' h
  obtain ⟨io, pos, e, bm, bd, refs, rf⟩ := s
  cases h
  exact ⟨⟨fun hb => ⟨hb, rfl⟩, [], by simp⟩, trivial⟩

/-- skip is tame. -/
theorem tame_skip (n : Nat) : Tame (fun _ => True) (skip n) := by
  intro s a s' h
  obtain ⟨io, pos, e, bm, bd, refs, rf⟩ := s
  cases h
  exact ⟨⟨fun hb => ⟨hb, rfl⟩, [], by simp⟩, trivial⟩

/-- getUnread is tame. -/
theorem tame_getUnread : Tame (fun _ => True) getUnread := by
  intro s a s' h
  cases h
  exact ⟨⟨fun hb => ⟨hb, rfl⟩, [], by simp⟩, trivial⟩

/-- addReference appends exactly one record and is tame. -/
theorem tame_addReference (r : Record) : Tame (fun _ => True) (addReference r) := by
  intro s a s' h
  obtain ⟨io, pos, e, bm, bd, refs, rf⟩ := s
  cases h
  exact ⟨⟨fun hb => ⟨hb, rfl⟩, [r], by simp⟩, trivial⟩

/-- getReference is tame (it never writes the state). -/
theorem tame_getReference (ref : Int) : Tame (fun _ => True) (getReference ref) := by
  intro s a s' h
  unfold getReference at h
  cases hp : pyIndex s.references ref with
  | ok r => rw [hp] at h; cases h; exact ⟨⟨fun hb => ⟨hb, rfl⟩, [], by simp⟩, trivial⟩
  | error e => rw [hp] at h; cases h

/-- streamRead is tame. -/
theorem tame_streamRead (ln : Nat) : Tame (fun _ => True) (streamRead ln) := by
  intro s a s' h
  obtain ⟨io, pos, e, bm, bd, refs, rf⟩ := s
  simp only [streamRead] at h
  split at h
  · cases h
    exact ⟨⟨fun hb => ⟨hb, rfl⟩, [], by simp⟩, trivial⟩
  · cases h

/-- frameRead is tame. -/
theorem tame_frameRead (ln : Nat) : Tame (fun _ => True) (frameRead ln) := by
  intro s a s' h
  obtain ⟨io, pos, e, bm, bd, refs, rf⟩ := s
  simp only [frameRead] at h
  match bd with
  | none => cases h
  | some ⟨sz, content, ioPos, hasBuf⟩ =>
    simp only at h
    split at h
    · split at h
      · cases h
        exact ⟨⟨fun hb => ⟨hb, rfl⟩, [], by simp⟩, trivial⟩
      · cases h
    · cases h

/-- The full postcondition of a successful refill: it requires block mode,
restores block mode, resets the cursor onto a fresh frame whose end is the
announced size, increments the refill counter exactly once (the decode of
the block record runs in stream mode, where a nested refill raises), only
appends to the handle table, and the adopted frame content matches its size
whenever the io buffer is present. -/
theorem refillG_ok {deco : HM Record} (hd : Tame GoodBD deco) (s s' : HState)
    (h : refillG deco s = .ok ((), s')) :
    s.blockMode = true ∧ s'.blockMode = true ∧ s'.pos = 0 ∧
    s'.refills = s.refills + 1 ∧
    (∃ t, s'.references = s.references ++ t) ∧
    ∃ f, s'.blockData = some f ∧ f.ioPos = 0 ∧ s'.end_ = f.size ∧
      (f.hasBuf = true → f.content.length = f.size) := by
  obtain ⟨io, pos, e, bm, bd0, refs, rf⟩ := s
  cases bm with
  | false => simp [refillG] at h
  | true =>
    simp only [refillG, if_pos] at h
    rw [bind_ok_iff] at h
    obtain ⟨u, s1, h1, h⟩ := h
    simp only [getUnread, Except.ok.injEq, Prod.mk.injEq] at h1
    obtain ⟨hu, hs1⟩ := h1
    subst hu
    subst hs1
    rw [bind_ok_iff] at h
    obtain ⟨u2, s2, h2, h⟩ := h
    simp only [skip, Except.ok.injEq, Prod.mk.injEq] at h2
    obtain ⟨-, hs2⟩ := h2
    subst hs2
    rw [bind_ok_iff] at h
    obtain ⟨u3, s3, h3, h⟩ := h
    simp only [setBlockDataMode, Bool.false_eq_true, if_false] at h3
    by_cases hpe : pos < e
    · simp [hpe] at h3
    · simp only [hpe, if_false, Except.ok.injEq, Prod.mk.injEq] at h3
      obtain ⟨-, hs3⟩ := h3
      subst hs3
      rw [bind_ok_iff] at h
      obtain ⟨bd, s4, hdec, h⟩ := h
      obtain ⟨⟨hmode, t, hrefs⟩, hgood⟩ := hd _ _ _ hdec
      obtain ⟨hbm4, hrf4⟩ := hmode rfl
      obtain ⟨io4, pos4, e4, bm4, bd4, refs4, rf4⟩ := s4
      have hbm4' : bm4 = false := hbm4
      have hrf4' : rf4 = rf := hrf4
      have hrefs' : refs4 = refs ++ t := hrefs
      subst hbm4'
      rw [bind_ok_iff] at h
      obtain ⟨u5, s5, h5, h⟩ := h
      simp only [setBlockDataMode, Bool.true_eq_false, if_false, if_true,
        Except.ok.injEq, Prod.mk.injEq] at h5
      obtain ⟨-, hs5⟩ := h5
      subst hs5
      cases bd
      all_goals try simp only [throwE] at h
      all_goals try cases h
      all_goals
        exact ⟨rfl, rfl, rfl, by simp [hrf4'], ⟨t, by simp [hrefs']⟩,
          ⟨⟨_, _, 0, _⟩, rfl, rfl, rfl, hgood⟩⟩

/-- refill is tame: a successful refill starts in block mode, so the
stream-mode clause is vacuous, and it appends to the table only through the
nested decode. -/
theorem tame_refillG {deco : HM Record} (hd : Tame GoodBD deco) :
    Tame (fun _ => True) (refillG deco) := by
  intro s a s' h
  obtain ⟨hbm, _, _, _, hrefs, _⟩ := refillG_ok hd s s' (by cases a; exact h)
  refine ⟨⟨fun hb => ?_, hrefs⟩, trivial⟩
  rw [hbm] at hb
  cases hb

/-- read_struct is tame for a tame decode argument. -/
theorem tame_readStructG {deco : HM Record} (hd : Tame GoodBD deco) (fmt : StructFmt) :
    Tame (fun _ => True) (readStructG deco fmt) := by
  unfold readStructG
  cases calcsize fmt with
  | none => exact tame_throwE
  | some ln =>
    refine tame_bind (fun _ => True) tame_getS (fun s _ => ?_)
    refine tame_bind (fun _ => True) ?_ (fun _ _ => ?_)
    · split
      · exact tame_refillG hd
      · exact tame_pure trivial
    · refine tame_bind (fun _ => True) tame_getS (fun s2 _ => ?_)
      split
      · exact tame_frameRead ln
      · exact tame_streamRead ln

/-- read_boolean is tame. -/
theorem tame_readBoolean {deco : HM Record} (hd : Tame GoodBD deco) :
    Tame (fun _ => True) (readBoolean deco) :=
  tame_bind (fun _ => True) (tame_readStructG hd .fBool) (fun _ _ => tame_pure trivial)

/-- read_byte is tame. -/
theorem tame_readByte {deco : HM Record} (hd : Tame GoodBD deco) :
    Tame (fun _ => True) (readByte deco) :=
  tame_bind (fun _ => True) (tame_readStructG hd .fB) (fun _ _ => tame_pure trivial)

/-- read_char is tame (vacuously: it always raises). -/
theorem tame_readChar {deco : HM Record} (hd : Tame GoodBD deco) :
    Tame (fun _ => True) (readChar deco) :=
  tame_bind (fun _ => True) (tame_readStructG hd .fSS) (fun _ _ => tame_throwE)

/-- read_double is tame (vacuously: it always raises). -/
theorem tame_readDouble {deco : HM Record} (hd : Tame GoodBD deco) :
    Tame (fun _ => True) (readDouble deco) :=
  tame_bind (fun _ => True) (tame_readStructG hd .fD) (fun _ _ => tame_pure trivial)

/-- read_float is tame (vacuously: it always raises). -/
theorem tame_readFloat {deco : HM Record} (hd : Tame GoodBD deco) :
    Tame (fun _ => True) (readFloat deco) :=
  tame_bind (fun _ => True) (tame_readStructG hd .fF) (fun _ _ => tame_pure trivial)

/-- read_short is tame. -/
theorem tame_readShort {deco : HM Record} (hd : Tame GoodBD deco) :
    Tame (fun _ => True) (readShort deco) :=
  tame_bind (fun _ => True) (tame_readByte hd) (fun _ _ =>
    tame_bind (fun _ => True) (tame_readByte hd) (fun _ _ => tame_pure trivial))

/-- read_int is tame. -/
theorem tame_readInt {deco : HM Record} (hd : Tame GoodBD deco) :
    Tame (fun _ => True) (readInt deco) :=
  tame_bind (fun _ => True) (tame_readShort hd) (fun _ _ =>
    tame_bind (fun _ => True) (tame_readShort hd) (fun _ _ => tame_pure trivial))

/-- read_long is tame. -/
theorem tame_readLong {deco : HM Record} (hd : Tame GoodBD deco) :
    Tame (fun _ => True) (readLong deco) :=
  tame_bind (fun _ => True) (tame_readInt hd) (fun _ _ =>
    tame_bind (fun _ => True) (tame_readInt hd) (fun _ _ => tame_pure trivial))

/-- read_primitive is tame and its result is a well-formed record. -/
theorem tame_readPrimitive {deco : HM Record} (hd : Tame GoodBD deco) (t : PyType) :
    Tame GoodBD (readPrimitive deco t) := by
  cases t with
  | falseV => exact hd
  | pstr s =>
    unfold readPrimitive
    repeat' split
    all_goals
      first
        | exact hd
        | exact tame_bind (fun _ => True)
            (by first
              | exact tame_readByte hd
              | exact tame_readChar hd
              | exact tame_readDouble hd
              | exact tame_readFloat hd
              | exact tame_readInt hd
              | exact tame_readLong hd
              | exact tame_readShort hd
              | exact tame_readBoolean hd)
            (fun _ _ => tame_pure trivial)

/-- The character loop is tame. -/
theorem tame_readChars {deco : HM Record} (hd : Tame GoodBD deco) (n : Nat) :
    Tame (fun _ => True) (readChars deco n) := by
  induction n with
  | zero => exact tame_pure trivial
  | succ k ih =>
    exact tame_bind (fun _ => True) (tame_readByte hd) (fun _ _ =>
      tame_bind (fun _ => True) ih (fun _ _ => tame_pure trivial))

/-- String decoding is tame. -/
theorem tame_stringDecode {deco : HM Record} (hd : Tame GoodBD deco) :
    Tame (fun _ => True) (stringDecode deco) := by
  unfold stringDecode
  refine tame_bind (fun _ => True) (tame_readShort hd) (fun ln _ => ?_)
  split
  · exact tame_pure trivial
  · exact tame_readChars hd ln

/-- LongString decoding is tame. -/
theorem tame_longStringDecode {deco : HM Record} (hd : Tame GoodBD deco) :
    Tame (fun _ => True) (longStringDecode deco) := by
  unfold longStringDecode
  refine tame_bind (fun _ => True) (tame_readLong hd) (fun ln _ => ?_)
  split
  · exact tame_pure trivial
  · exact tame_readChars hd ln

/-- BlockData decoding is tame and its result is well formed: when the io
buffer is present the stored content has exactly the announced size. -/
theorem tame_blockDataDecode {deco : HM Record} (hd : Tame GoodBD deco) (long : Bool) :
    Tame GoodBD (blockDataDecode deco long) := by
  unfold blockDataDecode
  refine tame_bind (fun _ => True) ?_ (fun size _ => ?_)
  · split
    · exact tame_readInt hd
    · exact tame_readByte hd
  · split
    · refine tame_pure ?_
      split <;> exact fun h => by cases h
    · refine tame_bind (fun _ => True) (tame_ioRead size) (fun content _ => ?_)
      split
      next hlen =>
        refine tame_pure ?_
        split <;> exact fun _ => hlen
      next hlen => exact tame_throwE

/-- ClassDesc decoding is tame. -/
theorem tame_classDescDecode {deco : HM Record} (hd : Tame GoodBD deco) :
    Tame GoodBD (classDescDecode deco) := by
  unfold classDescDecode
  refine tame_bind GoodBD hd (fun t _ => ?_)
  cases t
  all_goals first
    | exact tame_pure trivial
    | exact tame_throwE

/-- Enum decoding is tame. -/
theorem tame_enumDecode {deco : HM Record} (hd : Tame GoodBD deco) :
    Tame GoodBD (enumDecode deco) := by
  unfold enumDecode
  refine tame_bind GoodBD (tame_classDescDecode hd) (fun desc _ => ?_)
  refine tame_bind (fun _ => True) (tame_addReference _) (fun _ _ => ?_)
  refine tame_bind GoodBD hd (fun t _ => ?_)
  cases t
  all_goals try exact tame_pure trivial
  all_goals try exact tame_throwE
  split
  all_goals try exact tame_pure trivial
  all_goals try (rename_i hno; exact (hno _ _ rfl).elim)
  all_goals split
  all_goals try exact tame_pure trivial
  all_goals exact tame_throwE

/-- Field decoding is tame. -/
theorem tame_fieldDecode {deco : HM Record} (hd : Tame GoodBD deco) :
    Tame GoodBD (fieldDecode deco) := by
  unfold fieldDecode
  refine tame_bind (fun _ => True) (tame_readByte hd) (fun code _ => ?_)
  split
  · refine tame_bind (fun _ => True) (tame_stringDecode hd) (fun name _ => ?_)
    split
    · refine tame_bind GoodBD hd (fun t _ => ?_)
      cases t
      all_goals first
        | exact tame_pure trivial
        | exact tame_throwE
    · exact tame_pure trivial
  · exact tame_throwE

/-- The field loop is tame. -/
theorem tame_decodeFieldsN {deco : HM Record} (hd : Tame GoodBD deco) (n : Nat) :
    Tame (fun _ => True) (decodeFieldsN deco n) := by
  induction n with
  | zero => exact tame_pure trivial
  | succ k ih =>
    exact tame_bind GoodBD (tame_fieldDecode hd) (fun _ _ =>
      tame_bind (fun _ => True) ih (fun _ _ => tame_pure trivial))

/-- NewClassDesc decoding is tame. -/
theorem tame_newClassDescDecode {deco : HM Record} (hd : Tame GoodBD deco) :
    Tame GoodBD (newClassDescDecode deco) := by
  unfold newClassDescDecode
  refine tame_bind (fun _ => True) (tame_stringDecode hd) (fun name _ => ?_)
  refine tame_bind (fun _ => True) (tame_readLong hd) (fun uid _ => ?_)
  refine tame_bind (fun _ => True) (tame_addReference _) (fun _ _ => ?_)
  refine tame_bind (fun _ => True) (tame_readByte hd) (fun flags _ => ?_)
  refine tame_bind (fun _ => True) (tame_readShort hd) (fun cnt _ => ?_)
  refine tame_bind (fun _ => True) (tame_decodeFieldsN hd cnt) (fun fields _ => ?_)
  refine tame_bind GoodBD hd (fun t _ => ?_)
  cases t
  case endBlockData =>
    exact tame_bind GoodBD (tame_classDescDecode hd) (fun _ _ => tame_pure trivial)
  all_goals exact tame_throwE

/-- The per-field value loop of class data is tame. -/
theorem tame_decodeFieldValues {deco : HM Record} (hd : Tame GoodBD deco)
    (fields : List Record) :
    Tame (fun _ => True) (decodeFieldValues deco fields) := by
  induction fields with
  | nil => exact tame_pure trivial
  | cons f fs ih =>
    refine tame_bind (fun _ => True) ?_
      (fun v _ => tame_bind (fun _ => True) ih (fun _ _ => tame_pure trivial))
    cases f
    all_goals try exact tame_throwE
    split
    all_goals try (rename_i hno; exact (hno _ _ _ rfl).elim)
    all_goals split
    · exact tame_mono (tame_readPrimitive hd _) (fun _ _ => trivial)
    · refine tame_bind GoodBD hd (fun c _ => ?_)
      cases c
      all_goals exact tame_pure trivial

/-- Class-data decoding is tame. -/
theorem tame_decodeClassData {deco : HM Record} (hd : Tame GoodBD deco) :
    ∀ cfuel ocd, Tame (fun _ => True) (decodeClassData deco cfuel ocd) := by
  intro cfuel
  induction cfuel with
  | zero =>
    intro ocd
    cases ocd with
    | none => exact tame_pure trivial
    | some ncd => exact tame_throwE
  | succ k ih =>
    intro ocd
    cases ocd with
    | none => exact tame_pure trivial
    | some ncd =>
      cases ncd
      all_goals try exact tame_throwE
      refine tame_bind (fun _ => True) ?_ (fun superVals _ =>
        tame_bind (fun _ => True) (tame_decodeFieldValues hd _) (fun _ _ => tame_pure trivial))
      split
      · exact tame_pure trivial
      · exact ih _

/-- NewObject decoding is tame. -/
theorem tame_newObjectDecode {deco : HM Record} (hd : Tame GoodBD deco) (cfuel : Nat) :
    Tame GoodBD (newObjectDecode deco cfuel) := by
  unfold newObjectDecode
  refine tame_bind GoodBD (tame_classDescDecode hd) (fun cd _ => ?_)
  refine tame_bind (fun _ => True) (tame_addReference _) (fun _ _ => ?_)
  exact tame_bind (fun _ => True) (tame_decodeClassData hd cfuel _) (fun _ _ => tame_pure trivial)

/-- The array element loop is tame. -/
theorem tame_readElems {deco : HM Record} (hd : Tame GoodBD deco) (t : PyType) (n : Nat) :
    Tame (fun _ => True) (readElems deco t n) := by
  induction n with
  | zero => exact tame_pure trivial
  | succ k ih =>
    refine tame_bind (fun _ => True) (tame_mono (tame_readPrimitive hd t) (fun _ _ => trivial))
      (fun c _ => ?_)
    exact tame_bind (fun _ => True) ih (fun _ _ => tame_pure trivial)

/-- NewArray decoding is tame. -/
theorem tame_newArrayDecode {deco : HM Record} (hd : Tame GoodBD deco) :
    Tame GoodBD (newArrayDecode deco) := by
  unfold newArrayDecode
  refine tame_bind GoodBD hd (fun cd _ => ?_)
  refine tame_bind (fun _ => True) ?_ (fun cd2 _ => ?_)
  · cases cd
    all_goals first
      | exact tame_pure trivial
      | exact tame_throwE
  · refine tame_bind (fun _ => True) (tame_addReference _) (fun _ _ => ?_)
    refine tame_bind (fun _ => True) ?_ (fun t _ => ?_)
    · cases arrayType cd2 with
      | ok t => exact tame_pure trivial
      | error e => exact tame_throwE
    · refine tame_bind (fun _ => True) (tame_readInt hd) (fun size _ => ?_)
      exact tame_bind (fun _ => True) (tame_readElems hd t size) (fun _ _ => tame_pure trivial)

/-- NewClass decoding is tame. -/
theorem tame_newClassDecode {deco : HM Record} (hd : Tame GoodBD deco) :
    Tame GoodBD (newClassDecode deco) := by
  unfold newClassDecode
  refine tame_bind GoodBD (tame_classDescDecode hd) (fun cd _ => ?_)
  exact tame_bind (fun _ => True) (tame_addReference _) (fun _ _ => tame_pure trivial)

/-- Exception decoding is tame. -/
theorem tame_javaExceptionDecode {deco : HM Record} (hd : Tame GoodBD deco) :
    Tame GoodBD (javaExceptionDecode deco) := by
  unfold javaExceptionDecode
  refine tame_bind GoodBD hd (fun e _ => ?_)
  cases e
  all_goals exact tame_pure trivial

/-- Reference decoding is tame. -/
theorem tame_referenceDecode {deco : HM Record} (hd : Tame GoodBD deco) :
    Tame GoodBD (referenceDecode deco) := by
  unfold referenceDecode
  refine tame_bind (fun _ => True) (tame_readInt hd) (fun v _ => ?_)
  exact tame_bind (fun _ => True) (tame_getReference _) (fun obj _ => tame_pure trivial)

/-- decode_object is tame at every fuel: on success it cannot enable block
mode or complete a refill from stream mode, it only appends to the handle
table, and any block record it returns is well formed. -/
theorem tame_decodeObject : ∀ fuel, Tame GoodBD (decodeObject fuel) := by
  intro fuel
  induction fuel with
  | zero => exact tame_throwE
  | succ k ih =>
    show Tame GoodBD (decodeObject (k + 1))
    unfold decodeObject
    refine tame_bind (fun _ => True) (tame_readByte ih) (fun tc _ => ?_)
    by_cases h1 : tc = 0
    · rw [if_pos h1]; exact tame_throwE
    rw [if_neg h1]
    by_cases h2 : tc = 0x75
    · rw [if_pos h2]; exact tame_newArrayDecode ih
    rw [if_neg h2]
    by_cases h3 : tc = 0x77
    · rw [if_pos h3]; exact tame_blockDataDecode ih false
    rw [if_neg h3]
    by_cases h4 : tc = 0x7A
    · rw [if_pos h4]; exact tame_blockDataDecode ih true
    rw [if_neg h4]
    by_cases h5 : tc = 0x76
    · rw [if_pos h5]; exact tame_newClassDecode ih
    rw [if_neg h5]
    by_cases h6 : tc = 0x72
    · rw [if_pos h6]; exact tame_newClassDescDecode ih
    rw [if_neg h6]
    by_cases h7 : tc = 0x78
    · rw [if_pos h7]; exact tame_pure trivial
    rw [if_neg h7]
    by_cases h8 : tc = 0x7E
    · rw [if_pos h8]; exact tame_enumDecode ih
    rw [if_neg h8]
    by_cases h9 : tc = 0x7B
    · rw [if_pos h9]; exact tame_javaExceptionDecode ih
    rw [if_neg h9]
    by_cases h10 : tc = 0x7C
    · rw [if_pos h10]
      exact tame_bind (fun _ => True) (tame_longStringDecode ih) (fun c _ =>
        tame_bind (fun _ => True) (tame_addReference _) (fun _ _ => tame_pure trivial))
    rw [if_neg h10]
    by_cases h11 : tc = 0x70
    · rw [if_pos h11]; exact tame_pure trivial
    rw [if_neg h11]
    by_cases h12 : tc = 0x73
    · rw [if_pos h12]; exact tame_newObjectDecode ih k
    rw [if_neg h12]
    by_cases h13 : tc = 0x7D
    · rw [if_pos h13]; exact tame_throwE
    rw [if_neg h13]
    by_cases h14 : tc = 0x71
    · rw [if_pos h14]; exact tame_referenceDecode ih
    rw [if_neg h14]
    by_cases h15 : tc = 0x74
    · rw [if_pos h15]
      exact tame_bind (fun _ => True) (tame_stringDecode ih) (fun c _ =>
        tame_bind (fun _ => True) (tame_addReference _) (fun _ _ => tame_pure trivial))
    rw [if_neg h15]
    exact tame_pure trivial

/-- Unfolding of chainCountR on a NewClassDesc: own field count plus the
chain count of whatever NewClassDesc the super descriptor wraps. -/
theorem chainCountR_ncd (nm : List Nat) (uid fl : Nat) (fields : List Record)
    (sup : Option Record) :
    chainCountR (.newClassDesc nm uid fl fields sup) =
      (match sup with
       | none => 0
       | some sc => chainCount (getClassContent sc)) + fields.length := by
  cases sup with
  | none => simp [chainCountR, chainCount]
  | some sc =>
    cases sc
    case classDesc c =>
      cases c <;> simp [chainCountR, chainCount, getClassContent]
    all_goals simp [chainCountR, chainCount, getClassContent]

/-- The field-value loop returns exactly one value per field. -/
theorem decodeFieldValues_length (deco : HM Record) :
    ∀ (fields : List Record) (s : HState) (vals : List Record) (s' : HState),
      decodeFieldValues deco fields s = .ok (vals, s') →
      vals.length = fields.length := by
  intro fields
  induction fields with
  | nil =>
    intro s vals s' h
    simp only [decodeFieldValues, pure_apply, Except.ok.injEq, Prod.mk.injEq] at h
    obtain ⟨h1, -⟩ := h
    simp [h1.symm]
  | cons f fs ih =>
    intro s vals s' h
    simp only [decodeFieldValues] at h
    rw [bind_ok_iff] at h
    obtain ⟨v, s1, -, h⟩ := h
    rw [bind_ok_iff] at h
    obtain ⟨rest, s2, h2, h⟩ := h
    simp only [pure_apply, Except.ok.injEq, Prod.mk.injEq] at h
    obtain ⟨h3, -⟩ := h
    rw [h3.symm]
    simp [ih s1 rest s2 h2]

/-- decode_class_data returns exactly the chain field count of its argument:
one value per declared field of every NewClassDesc in the super chain. -/
theorem decodeClassData_length (deco : HM Record) :
    ∀ (cfuel : Nat) (ocd : Option Record) (s : HState) (vals : List Record)
      (s' : HState),
      decodeClassData deco cfuel ocd s = .ok (vals, s') →
      vals.length = chainCount ocd := by
  intro cfuel
  induction cfuel with
  | zero =>
    intro ocd s vals s' h
    cases ocd with
    | none =>
      simp only [decodeClassData, pure_apply, Except.ok.injEq, Prod.mk.injEq] at h
      obtain ⟨h1, -⟩ := h
      simp [h1.symm, chainCount]
    | some ncd => simp [decodeClassData, throwE] at h
  | succ k ih =>
    intro ocd s vals s' h
    cases ocd with
    | none =>
      simp only [decodeClassData, pure_apply, Except.ok.injEq, Prod.mk.injEq] at h
      obtain ⟨h1, -⟩ := h
      simp [h1.symm, chainCount]
    | some ncd =>
      cases ncd
      all_goals try simp [decodeClassData, throwE] at h
      case newClassDesc nm uid fl fields sup =>
        try simp only [decodeClassData] at h
        rw [bind_ok_iff] at h
        obtain ⟨superVals, s1, h1, h⟩ := h
        rw [bind_ok_iff] at h
        obtain ⟨fieldVals, s2, h2, h⟩ := h
        simp only [pure_apply, Except.ok.injEq, Prod.mk.injEq] at h
        obtain ⟨h3, -⟩ := h
        rw [h3.symm]
        rw [show chainCount (some (Record.newClassDesc nm uid fl fields sup)) =
              chainCountR (Record.newClassDesc nm uid fl fields sup) from rfl]
        rw [chainCountR_ncd]
        have hf := decodeFieldValues_length deco fields s1 fieldVals s2 h2
        cases sup with
        | none =>
          simp only [pure_apply, Except.ok.injEq, Prod.mk.injEq] at h1
          obtain ⟨h4, -⟩ := h1
          simp [h4.symm, hf]
        | some supCD =>
          have hs := ih (getClassContent supCD) s superVals s1 h1
          simp [hs, hf]


/-- Characterization of a successful frame read: the frame is present with
an io buffer, the returned bytes are a full-length slice at the frame
cursor, and both cursors advance by the width. -/
theorem frameRead_ok (ln : Nat) (s : HState) (ba : List Nat) (s' : HState)
    (h : frameRead ln s = .ok (ba, s')) :
    ∃ f, s.blockData = some f ∧ f.hasBuf = true ∧
      ba = (f.content.drop f.ioPos).take ln ∧ ba.length = ln ∧
      s' = ⟨s.io, s.pos + ln, s.end_, s.blockMode,
            some ⟨f.size, f.content, f.ioPos + ln, f.hasBuf⟩,
            s.references, s.refills⟩ := by
  obtain ⟨io, pos, e, bm, bd, refs, rf⟩ := s
  simp only [frameRead] at h
  cases bd with
  | none => cases h
  | some f =>
    obtain ⟨sz, content, ioPos, hasBuf⟩ := f
    cases hasBuf with
    | false => simp at h
    | true =>
      simp only [if_true] at h
      split at h
      next hlen =>
        simp only [Except.ok.injEq, Prod.mk.injEq] at h
        obtain ⟨hba, hs'⟩ := h
        exact ⟨⟨sz, content, ioPos, true⟩, rfl, rfl, hba.symm, by rw [hba] at hlen; exact hlen,
          hs'.symm⟩
      next hlen => cases h

/-- A frame holding fewer available bytes than the requested width makes the
frame read fail: with an end-of-stream error when the io buffer is present,
and with an attribute error when it is absent. -/
theorem frameRead_insufficient (ln : Nat) (s : HState) (f : Frame)
    (hbd : s.blockData = some f) (hlen : f.content.length - f.ioPos < ln) :
    frameRead ln s = .error (if f.hasBuf then Err.eof else Err.attributeError) := by
  obtain ⟨io, pos, e, bm, bd, refs, rf⟩ := s
  obtain ⟨sz, content, ioPos, hasBuf⟩ := f
  simp only at hbd
  subst hbd
  have hlen' : content.length - ioPos < ln := hlen
  simp only [frameRead]
  cases hasBuf with
  | false => simp
  | true =>
    simp only [if_true]
    have hl : ((content.drop ioPos).take ln).length ≠ ln := by
      simp only [List.length_take, List.length_drop]
      omega
    simp [hl]
    exact hlen'


/-- Evaluation of read_struct once the format size is known: an optional
refill (exactly when in block mode with the cursor at the frame end),
followed by a single frame or stream read. -/
theorem readStructG_eval (deco : HM Record) (fmt : StructFmt) (ln : Nat) (s : HState)
    (hc : calcsize fmt = some ln) :
    readStructG deco fmt s =
      if s.blockMode = true ∧ s.pos = s.end_ then
        (refillG deco >>= fun _ => getS >>= fun s2 =>
          if s2.blockMode = true then frameRead ln else streamRead ln) s
      else (if s.blockMode = true then frameRead ln else streamRead ln) s := by
  simp only [readStructG, hc]
  rw [bind_apply]
  simp only [getS]
  split
  · rfl
  · rfl


/-- C10 (amended): a single read_struct call in block mode performs at most
one refill, and only before reading: with the cursor at the frame end it
adopts exactly one new frame; if the adopted frame holds fewer bytes than
the requested width, the call fails (with an end-of-stream error when the
frame has an io buffer, and with an attribute error when the frame is empty
and its io is None) instead of refilling again; and every successful read
keeps the cursor within the frame end and preserves the reader invariant. -/
theorem c10_read_struct_discipline (fuel : Nat) (fmt : StructFmt) (ln : Nat)
    (s : HState) (hc : calcsize fmt = some ln) (hbm : s.blockMode = true)
    (hinv : BInv s) :
    (∀ ba s', readStructG (decodeObject fuel) fmt s = .ok (ba, s') →
       ba.length = ln ∧ s'.pos ≤ s'.end_ ∧ BInv s' ∧ s'.blockMode = true ∧
       s'.refills ≤ s.refills + 1 ∧ (s.pos ≠ s.end_ → s'.refills = s.refills)) ∧
    (∀ s1 f, s.pos = s.end_ → refillG (decodeObject fuel) s = .ok ((), s1) →
       s1.blockData = some f → f.content.length < ln →
       readStructG (decodeObject fuel) fmt s =
         .error (if f.hasBuf then Err.eof else Err.attributeError)) := by
  constructor
  · intro ba s' h
    rw [readStructG_eval _ _ _ _ hc] at h
    by_cases hpe : s.pos = s.end_
    · rw [if_pos ⟨hbm, hpe⟩] at h
      rw [bind_ok_iff] at h
      obtain ⟨u, s1, h1, h⟩ := h
      cases u
      obtain ⟨-, hbm1, hpos1, hrf1, -, f0, hbd1, hiop1, hend1, hbuf1⟩ :=
        refillG_ok (tame_decodeObject fuel) s s1 h1
      rw [bind_ok_iff] at h
      obtain ⟨s2, s3, h2, h⟩ := h
      simp only [getS, Except.ok.injEq, Prod.mk.injEq] at h2
      obtain ⟨h2a, h2b⟩ := h2
      subst h2a
      subst h2b
      rw [if_pos hbm1] at h
      obtain ⟨f, hbd, hbuf, hba, hlen, hs'⟩ := frameRead_ok ln s1 ba s' h
      rw [hbd1] at hbd
      injection hbd with hf
      subst hf
      have hcl : f0.content.length = f0.size := hbuf1 hbuf
      have hln : ln ≤ f0.content.length - f0.ioPos := by
        rw [hba] at hlen
        simp only [List.length_take, List.length_drop] at hlen
        omega
      subst hs'
      refine ⟨hlen, ?_, ?_, hbm1, ?_, fun hne => absurd hpe hne⟩
      · simp only
        omega
      · intro _
        right
        refine ⟨⟨f0.size, f0.content, f0.ioPos + ln, f0.hasBuf⟩, rfl, hbuf, ?_, ?_, ?_, ?_⟩
        · simpa using hcl
        · simp only
          omega
        · simp only
          omega
        · simp only
          omega
      · simp only
        omega
    · rw [if_neg (fun hand => hpe hand.2)] at h
      rw [if_pos hbm] at h
      obtain ⟨f, hbd, hbuf, hba, hlen, hs'⟩ := frameRead_ok ln s ba s' h
      obtain hd1 | ⟨f2, hbd2, hbuf2, hclen2, hiop2, hiople2, hend2⟩ := hinv hbm
      · exact absurd hd1 hpe
      · rw [hbd2] at hbd
        injection hbd with hf
        subst hf
        have hln : ln ≤ f2.content.length - f2.ioPos := by
          rw [hba] at hlen
          simp only [List.length_take, List.length_drop] at hlen
          omega
        subst hs'
        refine ⟨hlen, ?_, ?_, hbm, ?_, fun _ => rfl⟩
        · simp only
          omega
        · intro _
          right
          refine ⟨⟨f2.size, f2.content, f2.ioPos + ln, f2.hasBuf⟩, rfl, hbuf2, ?_, ?_, ?_, ?_⟩
          · simpa using hclen2
          · simp only
            omega
          · simp only
            omega
          · simp only
            omega
        · simp only
          omega
  · intro s1 f hpe href hbd hflen
    rw [readStructG_eval _ _ _ _ hc]
    rw [if_pos ⟨hbm, hpe⟩]
    rw [bind_apply, href]
    show (getS >>= fun s2 =>
      if s2.blockMode = true then frameRead ln else streamRead ln) s1 = _
    rw [bind_apply]
    show (if s1.blockMode = true then frameRead ln else streamRead ln) s1 = _
    obtain ⟨-, hbm1, -, -, -, f0, hbd1, hiop1, -, -⟩ :=
      refillG_ok (tame_decodeObject fuel) s s1 href
    rw [if_pos hbm1]
    rw [hbd1] at hbd
    injection hbd with hf
    subst hf
    exact frameRead_insufficient ln s1 f0 hbd1 (by omega)


/-- In stream mode read_struct is exactly one underlying read. -/
theorem readStructG_stream (deco : HM Record) (fmt : StructFmt) (ln : Nat)
    (s : HState) (hc : calcsize fmt = some ln) (hbm : s.blockMode = false) :
    readStructG deco fmt s = streamRead ln s := by
  rw [readStructG_eval _ _ _ _ hc]
  rw [if_neg (by simp [hbm])]
  rw [if_neg (by simp [hbm])]

/-- One stream-mode read_byte consumes the head byte and advances pos. -/
theorem readByte_stream (deco : HM Record) (s : HState) (b : Nat) (rest : List Nat)
    (hbm : s.blockMode = false) (hio : s.io = b :: rest) :
    readByte deco s =
      .ok (b, ⟨rest, s.pos + 1, s.end_, s.blockMode, s.blockData,
               s.references, s.refills⟩) := by
  obtain ⟨io, pos, e, bm, bd, refs, rf⟩ := s
  have hio' : io = b :: rest := hio
  have hbm' : bm = false := hbm
  subst hio'
  subst hbm'
  unfold readByte
  rw [bind_ok_eval (show readStructG deco StructFmt.fB _ = _ by
    rw [readStructG_stream deco .fB 1 _ rfl rfl]; rfl)]
  rfl

/-- One stream-mode read_short combines the two head bytes big-endian. -/
theorem readShort_stream (deco : HM Record) (s : HState) (b0 b1 : Nat)
    (rest : List Nat) (hbm : s.blockMode = false)
    (hio : s.io = b0 :: b1 :: rest) :
    readShort deco s =
      .ok ((b0 <<< 8) + b1,
           ⟨rest, s.pos + 2, s.end_, s.blockMode, s.blockData,
            s.references, s.refills⟩) := by
  obtain ⟨io, pos, e, bm, bd, refs, rf⟩ := s
  have hio' : io = b0 :: b1 :: rest := hio
  have hbm' : bm = false := hbm
  subst hio'
  subst hbm'
  unfold readShort
  rw [bind_ok_eval (readByte_stream deco _ b0 (b1 :: rest) rfl rfl)]
  rw [bind_ok_eval (readByte_stream deco _ b1 rest rfl rfl)]
  simp only [pure_apply, Except.ok.injEq, Prod.mk.injEq, HState.mk.injEq]
  try omega

/-- One stream-mode read_int combines the four head bytes big-endian. -/
theorem readInt_stream (deco : HM Record) (s : HState) (b0 b1 b2 b3 : Nat)
    (rest : List Nat) (hbm : s.blockMode = false)
    (hio : s.io = b0 :: b1 :: b2 :: b3 :: rest) :
    readInt deco s =
      .ok (((((b0 <<< 8) + b1) <<< 16) + ((b2 <<< 8) + b3)),
           ⟨rest, s.pos + 4, s.end_, s.blockMode, s.blockData,
            s.references, s.refills⟩) := by
  obtain ⟨io, pos, e, bm, bd, refs, rf⟩ := s
  have hio' : io = b0 :: b1 :: b2 :: b3 :: rest := hio
  have hbm' : bm = false := hbm
  subst hio'
  subst hbm'
  unfold readInt
  rw [bind_ok_eval (readShort_stream deco _ b0 b1 (b2 :: b3 :: rest) rfl rfl)]
  rw [bind_ok_eval (readShort_stream deco _ b2 b3 rest rfl rfl)]
  simp only [pure_apply, Except.ok.injEq, Prod.mk.injEq, HState.mk.injEq]
  try omega


/-- C6: for every successfully decoded NewObject, the number of slot values
equals the sum of the field counts of every NewClassDesc in its full
super-descriptor chain (chainCount walks that chain super-first). -/
theorem c6_newObject_slot_count (deco : HM Record) (cfuel : Nat) (s s' : HState)
    (cd : Record) (contents : List Record)
    (h : newObjectDecode deco cfuel s = .ok (.newObject cd contents, s')) :
    contents.length = chainCount (getClassContent cd) := by
  unfold newObjectDecode at h
  rw [bind_ok_iff] at h
  obtain ⟨cd1, s1, h1, h⟩ := h
  rw [bind_ok_iff] at h
  obtain ⟨u, s2, h2, h⟩ := h
  rw [bind_ok_iff] at h
  obtain ⟨vals, s3, h3, h⟩ := h
  simp only [pure_apply, Except.ok.injEq, Prod.mk.injEq, Record.newObject.injEq] at h
  obtain ⟨⟨hcd, hvals⟩, -⟩ := h
  subst hcd
  subst hvals
  exact decodeClassData_length deco cfuel _ s2 _ s3 h3

/-- C5 (amended): tag dispatch on byte 0x7D always fails with the
TC_PROXYCLASSDESC-not-supported error; no ProxyClassDesc record is ever
produced by decode_object. -/
theorem c5_proxy_tag_raises (fuel : Nat) (s : HState) (rest : List Nat)
    (hbm : s.blockMode = false) (hio : s.io = 0x7D :: rest) :
    decodeObject (fuel + 1) s = .error .proxyNotSupported := by
  obtain ⟨io, pos, e, bm, bd, refs, rf⟩ := s
  have hio' : io = 0x7D :: rest := hio
  have hbm' : bm = false := hbm
  subst hio'
  subst hbm'
  simp only [decodeObject]
  rw [bind_ok_eval (readByte_stream (decodeObject fuel) _ 0x7D rest rfl rfl)]
  norm_num
  rfl

/-- C2: the handle table is append-only across any decode_object call, and
the n-th table entry is retrievable by a TC_REFERENCE whose four-byte
operand is BASE_WIRE_HANDLE + n, yielding a Reference to that entry. -/
theorem c2_handle_table_lookup :
    (∀ fuel s r s', decodeObject fuel s = .ok (r, s') →
       ∃ t, s'.references = s.references ++ t) ∧
    (∀ fuel s (n : Nat) tgt b0 b1 b2 b3 rest,
       s.blockMode = false →
       s.io = 0x71 :: b0 :: b1 :: b2 :: b3 :: rest →
       (((b0 <<< 8) + b1) <<< 16) + ((b2 <<< 8) + b3) = 0x7E0000 + n →
       s.references.get? n = some tgt →
       decodeObject (fuel + 1) s =
         .ok (.reference (n : Int) tgt,
              ⟨rest, s.pos + 5, s.end_, s.blockMode, s.blockData,
               s.references, s.refills⟩)) := by
  constructor
  · intro fuel s r s' h
    exact ((tame_decodeObject fuel) s r s' h).1.2
  · intro fuel s n tgt b0 b1 b2 b3 rest hbm hio hv hget
    obtain ⟨io, pos, e, bm, bd, refs, rf⟩ := s
    have hio' : io = 0x71 :: b0 :: b1 :: b2 :: b3 :: rest := hio
    have hbm' : bm = false := hbm
    subst hio'
    subst hbm'
    have hget' : refs.get? n = some tgt := hget
    simp only [decodeObject]
    rw [bind_ok_eval (readByte_stream (decodeObject fuel) _ 0x71
      (b0 :: b1 :: b2 :: b3 :: rest) rfl rfl)]
    norm_num
    unfold referenceDecode
    rw [bind_ok_eval (readInt_stream (decodeObject fuel) _ b0 b1 b2 b3 rest rfl rfl)]
    rw [hv]
    have href : ((0x7E0000 + n : Nat) : Int) - 0x7E0000 = (n : Int) := by
      push_cast
      ring
    rw [href]
    have htn : ((n : Int)).toNat = n := by omega
    have hpy : pyIndex refs (n : Int) = .ok tgt := by
      simp only [pyIndex]
      rw [if_neg (by omega : ¬ ((n : Int) < 0))]
      rw [if_pos (by omega : (0 : Int) ≤ (n : Int))]
      rw [htn, hget']
    rw [bind_ok_eval (show getReference (n : Int) _ = .ok (tgt, _) from by
      unfold getReference
      rw [hpy])]
    simp only [pure_apply, Except.ok.injEq, Prod.mk.injEq, HState.mk.injEq]
    try omega


/-- C9 (amended): when the class descriptor resolved for a TC_ARRAY is not a
NewClassDesc whose class name begins with the open bracket, array_type does
not raise: it returns Python False and decoding proceeds. -/
theorem c9_array_type_no_error (d : Record) (h : isBracketArrayDesc d = false) :
    arrayType d = .ok .falseV := by
  cases d
  all_goals try rfl
  next name uid fl fields sup =>
    cases name with
    | nil => rfl
    | cons c0 rest2 =>
      by_cases hc : c0 = 91
      · subst hc
        simp [isBracketArrayDesc] at h
      · simp [arrayType, hc]

/-- C9 witness: a NewClassDesc named X (no leading bracket) is not a bracket
array descriptor and array_type yields False on it. -/
theorem c9_array_type_no_error_witness :
    isBracketArrayDesc (.newClassDesc [88] 0 2 [] (some (.classDesc .null))) = false ∧
    arrayType (.newClassDesc [88] 0 2 [] (some (.classDesc .null))) = .ok .falseV :=
  ⟨rfl, c9_array_type_no_error _ rfl⟩

/-- C9 counterexample: the stream header 0xACED 0005 followed by TC_ARRAY
with a descriptor named X (not starting with an open bracket) and size 0
decodes without error to a NewArray whose type is Python False, contradicting
the claim that such a stream fails. -/
theorem c9_nonbracket_array_decodes :
    handlerInit 5 [0xAC, 0xED, 0, 5, 0x75, 0x72, 0, 1, 0x58,
                   0, 0, 0, 0, 0, 0, 0, 0, 2, 0, 0, 0x78, 0x70, 0, 0, 0, 0] =
      .ok (.header 0xACED 5,
        ⟨[0x75, 0x72, 0, 1, 0x58, 0, 0, 0, 0, 0, 0, 0, 0, 2, 0, 0, 0x78, 0x70,
          0, 0, 0, 0], 4, 0, false, none, [], 0⟩) ∧
    decodeObject 4
      ⟨[0x75, 0x72, 0, 1, 0x58, 0, 0, 0, 0, 0, 0, 0, 0, 2, 0, 0, 0x78, 0x70,
        0, 0, 0, 0], 4, 0, false, none, [], 0⟩ =
      .ok (.newArray (.newClassDesc [88] 0 2 [] (some (.classDesc .null))) 0 .falseV [],
        ⟨[], 26, 0, false, none,
         [.newClassDesc [88] 0 0 [] none,
          .newArray (.newClassDesc [88] 0 2 [] (some (.classDesc .null))) 0
            (.pstr []) []], 0⟩) :=
  ⟨rfl, rfl⟩

/-- C1: read_float and read_double always raise struct.error (their struct
format characters F and D are invalid), so neither is composed from two
half-width reads and no f32 or f64 can ever be decoded, in stream or block
mode. -/
theorem c1_float_double_reads_raise :
    readFloat (decodeObject 1)
      ⟨[0x3F, 0x80, 0, 0], 0, 0, false, none, [], 0⟩ = .error .structError ∧
    readDouble (decodeObject 1)
      ⟨[0x3F, 0x80, 0, 0, 0, 0, 0, 0], 0, 0, false, none, [], 0⟩ =
      .error .structError :=
  ⟨rfl, rfl⟩

/-- C3: a stream whose header is four zero bytes (magic 0 and version 0,
matching neither 0xACED nor 5) is accepted by handler construction, which
stores the values unchecked, and the following record decodes normally. -/
theorem c3_header_not_validated :
    handlerInit 2 [0, 0, 0, 0, 0x70] =
      .ok (.header 0 0, ⟨[0x70], 4, 0, false, none, [], 0⟩) ∧
    decodeObject 2 ⟨[0x70], 4, 0, false, none, [], 0⟩ =
      .ok (.null, ⟨[], 5, 0, false, none, [], 0⟩) :=
  ⟨rfl, rfl⟩

/-- C4: after decoding String A (handle 0), a TC_REFERENCE with operand
0x7DFFFF (below BASE_WIRE_HANDLE, rebased index -1) does not raise: Python
negative list indexing resolves it to the last table entry, yielding a
Reference to that String instead of a dangling-handle error. -/
theorem c4_negative_handle_resolves :
    handlerInit 3 [0xAC, 0xED, 0, 5, 0x74, 0, 1, 0x41, 0x71, 0, 0x7D, 0xFF, 0xFF] =
      .ok (.header 0xACED 5,
        ⟨[0x74, 0, 1, 0x41, 0x71, 0, 0x7D, 0xFF, 0xFF], 4, 0, false, none, [], 0⟩) ∧
    decodeObject 3 ⟨[0x74, 0, 1, 0x41, 0x71, 0, 0x7D, 0xFF, 0xFF], 4, 0, false,
                    none, [], 0⟩ =
      .ok (.string [65],
        ⟨[0x71, 0, 0x7D, 0xFF, 0xFF], 8, 0, false, none, [.string [65]], 0⟩) ∧
    decodeObject 3 ⟨[0x71, 0, 0x7D, 0xFF, 0xFF], 8, 0, false, none,
                    [.string [65]], 0⟩ =
      .ok (.reference (-1) (.string [65]),
        ⟨[], 13, 0, false, none, [.string [65]], 0⟩) :=
  ⟨rfl, rfl, rfl⟩

/-- C7: the tag bytes 0x6F and 0x7F, both nonzero and outside the recognized
range 0x70 to 0x7E, make decode_object fall through its dispatch chain and
return Python None: no record and no error. -/
theorem c7_unknown_tag_returns_none :
    decodeObject 2 ⟨[0x6F], 0, 0, false, none, [], 0⟩ =
      .ok (.pyNone, ⟨[], 1, 0, false, none, [], 0⟩) ∧
    decodeObject 2 ⟨[0x7F], 0, 0, false, none, [], 0⟩ =
      .ok (.pyNone, ⟨[], 1, 0, false, none, [], 0⟩) :=
  ⟨rfl, rfl⟩

/-- C8: read_char always raises ValueError: read_struct with format >ss
yields a pair of one-byte values that the source unpacks into a single
variable; the big-endian code unit 0x0041 is never returned. -/
theorem c8_read_char_raises :
    readChar (decodeObject 1) ⟨[0x00, 0x41], 0, 0, false, none, [], 0⟩ =
      .error .valueError :=
  rfl

/-- C5 counterexample: a well-formed proxy-descriptor stream (tag 0x7D, zero
interfaces, end-block-data, null super), which the source's own unreachable
ProxyClassDesc.decode accepts, is rejected by decode_object with the
not-supported error instead of yielding a ProxyClassDesc record. -/
theorem c5_proxy_stream_rejected :
    decodeObject 3 ⟨[0x7D, 0, 0, 0, 0, 0x78, 0x70], 0, 0, false, none, [], 0⟩ =
      .error .proxyNotSupported ∧
    proxyClassDescDecode (decodeObject 2)
      ⟨[0, 0, 0, 0, 0x78, 0x70], 1, 0, false, none, [], 0⟩ =
      .ok (.proxyClassDesc [] (some (.classDesc .null)),
        ⟨[], 7, 0, false, none, [.proxyClassDesc [] none], 0⟩) :=
  ⟨rfl, rfl⟩

/-- C5 witness: the amended claim applied to a concrete stream starting with
tag 0x7D. -/
theorem c5_proxy_tag_raises_witness :
    decodeObject 4 ⟨[0x7D, 9, 9], 0, 0, false, none, [], 0⟩ =
      .error .proxyNotSupported :=
  c5_proxy_tag_raises 3 _ [9, 9] rfl rfl

/-- C2 witness: the lookup conjunct applied to the specification's example:
after String A occupies handle 0, the reference operand 0x7E0000 resolves to
that String. -/
theorem c2_handle_table_lookup_witness :
    decodeObject 3 ⟨[0x71, 0, 0x7E, 0, 0], 8, 0, false, none, [.string [65]], 0⟩ =
      .ok (.reference 0 (.string [65]),
        ⟨[], 13, 0, false, none, [.string [65]], 0⟩) :=
  c2_handle_table_lookup.2 2 _ 0 (.string [65]) 0 0x7E 0 0 [] rfl rfl (by decide) rfl

/-- C6 witness: the slot-count theorem applied to a concrete object of a
class X with one int field and a null super descriptor. -/
theorem c6_newObject_slot_count_witness :
    ([Record.vInt 7] : List Record).length =
      chainCount (getClassContent (.classDesc
        (.newClassDesc [88] 0 2 [.fieldRec 73 [120] none]
          (some (.classDesc .null))))) :=
  c6_newObject_slot_count (decodeObject 3) 3
    ⟨[0x72, 0, 1, 0x58, 0, 0, 0, 0, 0, 0, 0, 0, 2, 0, 1, 0x49, 0, 1, 0x78,
      0x78, 0x70, 0, 0, 0, 7], 5, 0, false, none, [], 0⟩
    ⟨[], 30, 0, false, none,
     [.newClassDesc [88] 0 0 [] none,
      .newObject (.classDesc (.newClassDesc [88] 0 2 [.fieldRec 73 [120] none]
        (some (.classDesc .null)))) []], 0⟩
    (.classDesc (.newClassDesc [88] 0 2 [.fieldRec 73 [120] none]
      (some (.classDesc .null))))
    [Record.vInt 7]
    rfl

/-- C10 counterexample: in block mode with the cursor at the frame end and
the next record a size-0 BlockData, a one-byte read_struct fails with an
attribute error (the empty frame's io is None), not with the end-of-stream
error the claim requires. -/
theorem c10_empty_frame_attribute_error :
    readStructG (decodeObject 3) .fB ⟨[0x77, 0], 0, 0, true, none, [], 0⟩ =
      .error .attributeError ∧
    readStructG (decodeObject 3) .fB ⟨[0x77, 0], 0, 0, true, none, [], 0⟩ ≠
      .error .eof := by
  constructor
  · rfl
  · intro h
    rw [show readStructG (decodeObject 3) .fB ⟨[0x77, 0], 0, 0, true, none, [], 0⟩ =
      .error .attributeError from rfl] at h
    simp at h

/-- C10 witness: the discipline theorem applied to a concrete block-mode
read of two bytes across one refill. -/
theorem c10_read_struct_discipline_witness :
    ([7, 8] : List Nat).length = 2 ∧
    (⟨[], 2, 2, true, some ⟨2, [7, 8], 2, true⟩, [], 1⟩ : HState).pos ≤
      (⟨[], 2, 2, true, some ⟨2, [7, 8], 2, true⟩, [], 1⟩ : HState).end_ ∧
    BInv ⟨[], 2, 2, true, some ⟨2, [7, 8], 2, true⟩, [], 1⟩ ∧
    (⟨[], 2, 2, true, some ⟨2, [7, 8], 2, true⟩, [], 1⟩ : HState).blockMode = true ∧
    (⟨[], 2, 2, true, some ⟨2, [7, 8], 2, true⟩, [], 1⟩ : HState).refills ≤
      (⟨[0x77, 2, 7, 8], 0, 0, true, none, [], 0⟩ : HState).refills + 1 ∧
    ((⟨[0x77, 2, 7, 8], 0, 0, true, none, [], 0⟩ : HState).pos ≠
       (⟨[0x77, 2, 7, 8], 0, 0, true, none, [], 0⟩ : HState).end_ →
     (⟨[], 2, 2, true, some ⟨2, [7, 8], 2, true⟩, [], 1⟩ : HState).refills =
       (⟨[0x77, 2, 7, 8], 0, 0, true, none, [], 0⟩ : HState).refills) :=
  (c10_read_struct_discipline 3 .fSS 2 ⟨[0x77, 2, 7, 8], 0, 0, true, none, [], 0⟩
    rfl rfl (fun _ => Or.inl rfl)).1 [7, 8] _ rfl


end ObjectStreamDecode
